import Mathlib

/-!
Verification development for the AI news Slack bot (`index.mjs`, latest
variant).  The JavaScript source is shallowly embedded: strings are Lean
`String`s manipulated through their underlying `List Char`, JS numbers that
hold unix timestamps / HN scores are `Int`, optional / possibly-missing JSON
fields are `Option`.  Each definition mirrors one function of the source and
is named after it where Lean allows.
-/

namespace AiNewsBot

/-- ASCII word character, the JS regex class `\w` = `[A-Za-z0-9_]`,
used by the word-boundary `\b` in `/\bai\b/i`. -/
def isWordChar (c : Char) : Bool :=
  c.isAlpha || c.isDigit || c == '_'

/-- Lower-casing of the concatenated text, mirroring
`(title + ' ' + url).toLowerCase()` (ASCII case folding). -/
def lowerText (title url : String) : List Char :=
  ((title ++ " " ++ url).data).map Char.toLower

/-- `text.includes(pat)` on character lists: `pat` occurs as a contiguous
substring of `text`. -/
def isSubstringL (pat : List Char) : List Char → Bool
  | [] => pat.isEmpty
  | c :: rest => pat.isPrefixOf (c :: rest) || isSubstringL pat rest

/-- The JS word-boundary test before a match: the regex `\b` holds at the
start of the text or after a non-word character. -/
def okBefore : Option Char → Bool
  | none => true
  | some c => !(isWordChar c)

/-- The JS word-boundary test after a match: `\b` holds at the end of the
text or before a non-word character. -/
def okAfter : List Char → Bool
  | [] => true
  | c :: _ => !(isWordChar c)

/-- Last character of `pre`, falling back to `prev` when `pre` is empty:
the character immediately preceding a match position. -/
def prevOf (prev : Option Char) : List Char → Option Char
  | [] => prev
  | c :: rest => prevOf (some c) rest

/-- One match attempt of `/\bai\b/i` at the current position: the text
starts with `"ai"` and both word boundaries hold (`prev` is the character
before the position). -/
def matchAiAt (prev : Option Char) (l : List Char) : Bool :=
  (['a', 'i'].isPrefixOf l) && okBefore prev && okAfter (l.drop 2)

/-- Scanner for the regex test `/\bai\b/i.test(text)` (the text is already
lower-cased): try a boundary-checked `"ai"` match at each position,
remembering the previous character. -/
def standaloneAiAux (prev : Option Char) : List Char → Bool
  | [] => false
  | c :: rest => matchAiAt prev (c :: rest) || standaloneAiAux (some c) rest

/-- `/\bai\b/i.test(text)`. -/
def standaloneAiB (text : List Char) : Bool :=
  standaloneAiAux none text

/-- `strongSignals` of `calculateAiRelevanceScore` (30 points, decisive). -/
def strongSignals : List String :=
  ["gpt-", "chatgpt", "openai", "anthropic", "claude",
   "llm", "large language model", "gemini", "mistral", "llama",
   "perplexity", "midjourney", "dall-e", "sora", "runway",
   "cursor", "github copilot", "ai copilot",
   "artificial intelligence", "generative ai", "gen ai",
   "ai tool", "ai app", "ai platform", "ai agent", "ai assistant"]

/-- `mediumSignals` of `calculateAiRelevanceScore` (15 points each). -/
def mediumSignals : List String :=
  ["ai update", "ai release", "ai launch", "ai announcement",
   "multimodal", "autonomous agent", "reasoning"]

/-- `weakSignals` of `calculateAiRelevanceScore` (5 points each; `"ai"` is
matched with the word-boundary regex, the rest as raw substrings). -/
def weakSignals : List String :=
  ["ai", "machine learning", "ml", "deep learning"]

/-- The legacy `KEYWORDS` table at the top of the file.  In the latest
variant it is declared but never read by `calculateAiRelevanceScore` or
`isAiRelated`. -/
def KEYWORDS : List String :=
  ["ai", "artificial intelligence", "generative ai", "gen ai", "llm",
   "large language model",
   "gpt-", "gpt-4", "gpt-3", "gpt-5", "o1", "o3", "chatgpt", "openai",
   "gpt store", "custom gpt", "gpts",
   "anthropic", "claude", "mistral", "llama", "gemini", "google ai",
   "meta ai", "perplexity",
   "ai tool", "ai app", "ai platform", "ai agent", "ai assistant",
   "ai copilot", "cursor", "github copilot", "midjourney", "dall-e",
   "stable diffusion", "sora", "runway",
   "new ai", "ai update", "ai release", "ai launch", "ai announcement",
   "ai news",
   "multimodal", "autonomous agent", "reasoning", "state of ai"]

/-- The strong-signal loop.  In the source, the first matching strong signal
sets `score` to 30 and immediately returns `Math.min(100, score)`; so the
loop either returns `min 100 30` at the first match or falls through. -/
def strongLoop : List String → List Char → Option Nat
  | [], _ => none
  | s :: rest, text =>
      if isSubstringL s.data text then some (min 100 30) else strongLoop rest text

/-- The medium-signal loop: each matching signal adds 15 points, no
short-circuit. -/
def mediumLoop : List String → List Char → Nat
  | [], _ => 0
  | s :: rest, text =>
      (if isSubstringL s.data text then 15 else 0) + mediumLoop rest text

/-- The weak-signal loop: `"ai"` is tested with `/\bai\b/i`, the other three
signals with `text.includes`; each match adds 5 points. -/
def weakPoints (text : List Char) : Nat :=
  (if standaloneAiB text then 5 else 0)
  + (if isSubstringL ("machine learning".data) text then 5 else 0)
  + (if isSubstringL ("ml".data) text then 5 else 0)
  + (if isSubstringL ("deep learning".data) text then 5 else 0)

/-- `calculateAiRelevanceScore(title = '', url = '')` of the latest variant:
lower-cased concatenation, short-circuiting strong tier, summed medium and
weak tiers, final `Math.min(100, score)`. -/
def calculateAiRelevanceScore (title url : String) : Nat :=
  let text := lowerText title url
  match strongLoop strongSignals text with
  | some v => v
  | none => min 100 (mediumLoop mediumSignals text + weakPoints text)

/-- `isAiRelated(title, url)`: relevance score at least 10. -/
def isAiRelated (title url : String) : Bool :=
  decide (10 ≤ calculateAiRelevanceScore title url)

/-- A Hacker News item record as fetched from the content API.  Fields that
the JSON may omit are `Option`; `score` is the HN popularity score, `time`
the unix creation time in seconds. -/
structure Item where
  id : Int
  title : Option String
  url : Option String
  score : Option Int
  time : Option Int
  descendants : Option Int
deriving Repr, DecidableEq

/-- The record produced by the scoring map in `getAiStories`: the item
spread together with `relevanceScore` and `isRecent`. -/
structure ScoredItem where
  item : Item
  relevanceScore : Nat
  isRecent : Bool
deriving Repr, DecidableEq

/-- The per-item body of the `.map` in `getAiStories`.  `!item?.title`
drops a missing item, a missing title and an empty title (JS falsiness);
a missing `url` hits the `url = ''` default parameter of the scorer;
`isRecent` is `!item.time || item.time >= twentyFourHoursAgo`, which is true
when `time` is absent or `0` (both falsy) or at least the cutoff. -/
def scoreItem (cutoff : Int) (it : Item) : Option ScoredItem :=
  match it.title with
  | none => none
  | some t =>
    if t = "" then none
    else some
      { item := it
        relevanceScore := calculateAiRelevanceScore t (it.url.getD "")
        isRecent :=
          match it.time with
          | none => true
          | some tm => tm == 0 || decide (cutoff ≤ tm) }

/-- The `.filter` predicate of `getAiStories`: minimum relevance score 10
and recency (the null check of the filter is already handled by
`Option.bind` over `scoreItem`). -/
def keepStory (s : ScoredItem) : Bool :=
  decide (10 ≤ s.relevanceScore) && s.isRecent

/-- The sort comparator of `getAiStories`: relevance score descending with
differences of at most 5 treated as a tie, then HN score descending
(`b.score || 0`, so a missing score counts as 0), then creation time
descending (`b.time || 0`). -/
def cmpStories (a b : ScoredItem) : Int :=
  if 5 < ((b.relevanceScore : Int) - (a.relevanceScore : Int)).natAbs then
    (b.relevanceScore : Int) - (a.relevanceScore : Int)
  else if b.item.score.getD 0 - a.item.score.getD 0 ≠ 0 then
    b.item.score.getD 0 - a.item.score.getD 0
  else b.item.time.getD 0 - a.item.time.getD 0

/-- Stable insertion into a list sorted by the comparator: the new element
goes before the first element it need not follow. -/
def insertRanked (x : ScoredItem) : List ScoredItem → List ScoredItem
  | [] => [x]
  | y :: ys => if cmpStories x y ≤ 0 then x :: y :: ys else y :: insertRanked x ys

/-- `Array.prototype.sort` with `cmpStories`, modelled as a stable insertion
sort driven by the comparator (the engine's algorithm on arrays this small). -/
def sortRanked : List ScoredItem → List ScoredItem
  | [] => []
  | x :: xs => insertRanked x (sortRanked xs)

/-- The pure core of `getAiStories`, parametrised by the fetched items (a
fetch may yield `null`, hence `Option Item`) and the current unix time:
score and annotate, filter by relevance and recency, sort by the composite
comparator, `slice(0, 5)`. -/
def getAiStoriesPure (items : List (Option Item)) (now : Int) : List ScoredItem :=
  let cutoff := now - 24 * 60 * 60
  (sortRanked ((items.filterMap (fun oi => oi.bind (scoreItem cutoff))).filter
    keepStory)).take 5

/-- `toHnUrl(item)`: the item's url, or the HN thread permalink when the url
is absent or empty (JS falsiness of `item.url`). -/
def toHnUrl (it : Item) : String :=
  match it.url with
  | some u => if u = "" then "https://news.ycombinator.com/item?id=" ++ toString it.id else u
  | none => "https://news.ycombinator.com/item?id=" ++ toString it.id

/-- Replace the first occurrence of `pat` in the text, mirroring the
single-replacement `String.prototype.replace` with a string pattern. -/
def replaceFirstL (pat repl : List Char) : List Char → List Char
  | [] => []
  | c :: rest =>
      if pat.isPrefixOf (c :: rest) then repl ++ (c :: rest).drop pat.length
      else c :: replaceFirstL pat repl rest

/-- Scan for the scheme separator `"://"` and return the text after it. -/
def afterSchemeSep : List Char → Option (List Char)
  | [] => none
  | c :: rest =>
      if ([':', '/', '/'] : List Char).isPrefixOf (c :: rest)
      then some ((c :: rest).drop 3)
      else afterSchemeSep rest

/-- Modelled host extraction for `new URL(url).hostname`: the text between
`"://"` and the next `/`, `?`, `#` or `:`; `none` when there is no scheme
separator or the host is empty, standing for the thrown `TypeError`.
(Real URL parsing is richer; no claim depends on this function.) -/
def hostOf (u : String) : Option String :=
  match afterSchemeSep u.data with
  | none => none
  | some after =>
    let host := after.takeWhile (fun c => !(c == '/' || c == '?' || c == '#' || c == ':'))
    if host.isEmpty then none else some (String.mk host)

/-- `getDomain(url)`: hostname with the first `"www."` removed, falling back
to `"news.ycombinator.com"` when the url is absent or unparsable. -/
def getDomain (url : Option String) : String :=
  match url with
  | none => "news.ycombinator.com"
  | some u =>
    match hostOf u with
    | none => "news.ycombinator.com"
    | some h => String.mk (replaceFirstL ("www.".data) [] h.data)

/-- Page-preview metadata attached per story, both fields best-effort. -/
structure Metadata where
  image : Option String
  description : Option String
deriving Repr, DecidableEq

/-- Bounded-fuel engine for the global-replace
`String.prototype.replace(/pat/g, repl)`: scan left to right, replacing
non-overlapping occurrences.  Each step consumes at least one character, so
`text.length` fuel is always enough. -/
def replaceAllFuel (pat repl : List Char) : Nat → List Char → List Char
  | _, [] => []
  | 0, t => t
  | fuel + 1, c :: rest =>
      if !pat.isEmpty && pat.isPrefixOf (c :: rest) then
        repl ++ replaceAllFuel pat repl fuel ((c :: rest).drop pat.length)
      else c :: replaceAllFuel pat repl fuel rest

/-- Global replace of a literal pattern. -/
def replaceAllL (pat repl text : List Char) : List Char :=
  replaceAllFuel pat repl text.length text

/-- The five entity replacements of `fetchMetadata`, applied in source
order: `&quot;`, `&amp;`, `&lt;`, `&gt;`, `&#39;`. -/
def decodeEntities (l : List Char) : List Char :=
  replaceAllL ("&#39;".data) ['\'']
    (replaceAllL ("&gt;".data) ['>']
      (replaceAllL ("&lt;".data) ['<']
        (replaceAllL ("&amp;".data) ['&']
          (replaceAllL ("&quot;".data) ['"'] l))))

/-- Whitespace stripped by `String.prototype.trim`. -/
def isJsSpace (c : Char) : Bool :=
  c == ' ' || c == '\t' || c == '\n' || c == '\r' || c == '\x0b' ||
  c == '\x0c' || c == '\u00A0' || c == '\uFEFF'

/-- `.trim()` on character lists: strip whitespace from both ends. -/
def jsTrim (l : List Char) : List Char :=
  ((l.dropWhile isJsSpace).reverse.dropWhile isJsSpace).reverse

/-- The entity-decoded, trimmed description before the length cap. -/
def cleanCore (raw : String) : List Char :=
  jsTrim (decodeEntities raw.data)

/-- The description clean-up of `fetchMetadata`: decode the five entities,
trim, and when the result exceeds 200 characters truncate to
`substring(0, 197) + '...'`. -/
def cleanDescription (raw : String) : String :=
  let c := cleanCore raw
  if 200 < c.length then String.mk (c.take 197 ++ ("...".data)) else String.mk c

/-- A Slack block text object (`plain_text` with the emoji flag, or
`mrkdwn`). -/
inductive BlockText where
  | plain (s : String) (emoji : Bool)
  | mrkdwn (s : String)
deriving Repr, DecidableEq

/-- A Slack block as built by `formatSlackBlocks`: header, divider, or a
section with an optional image accessory `(image_url, alt_text)`. -/
inductive Block where
  | header (t : BlockText)
  | divider
  | section (t : BlockText) (accessory : Option (String × String))
deriving Repr, DecidableEq

/-- The header text of the message.  The escapes reproduce the exact
characters present in the source literal before `${today}` (the source file
stores the robot emoji and em dash as mojibake code points). -/
def headerText (today : String) : String :=
  "ðŸ¤– Daily AI Updates & New Tools â€” " ++ today

/-- The pure core of `formatSlackBlocks`, parametrised by the metadata
fetched for each story (the network fan-out) and the formatted date: header
and divider, then either the single "no stories" section or one section per
story (title line, link with domain label, optional italicised description,
optional image accessory) with dividers between stories. -/
def formatSlackBlocksPure (stories : List ScoredItem) (metas : List Metadata)
    (today : String) : List Block :=
  let headerBlocks : List Block :=
    [Block.header (BlockText.plain (headerText today) true), Block.divider]
  if stories.isEmpty then
    headerBlocks ++ [Block.section (BlockText.mrkdwn "No AI-related stories found today.") none]
  else
    headerBlocks ++ (stories.enum.flatMap (fun p =>
      let i := p.1
      let story := p.2
      let url := toHnUrl story.item
      let domain := getDomain story.item.url
      let meta := metas.getD i { image := none, description := none }
      let text := "*" ++ toString (i + 1) ++ ". " ++ story.item.title.getD "" ++
        "*\n<" ++ url ++ "|" ++ domain ++ ">" ++
        (match meta.description with
         | some d => "\n_" ++ d ++ "_"
         | none => "")
      [Block.section (BlockText.mrkdwn text)
        (meta.image.map (fun im => (im, story.item.title.getD "")))] ++
      (if i + 1 < stories.length then [Block.divider] else [])))

/-- Observable effects of one run: network calls and console lines. -/
inductive Effect where
  | fetchTopStories
  | fetchItem (id : Int)
  | fetchUrl (url : String)
  | fetchWebhook (url : String)
  | logError (msg : String)
  | logInfo (msg : String)
deriving Repr, DecidableEq

/-- Effect trace of `postToSlack`: with no webhook configured it logs the
configuration error and returns without any network call; otherwise it posts
to the webhook and logs the outcome (`ok` stands for the HTTP response
status; network exceptions are outside the model). -/
def postToSlackModel (webhook : Option String) (ok : Bool) : List Effect :=
  match webhook with
  | none => [Effect.logError "SLACK_WEBHOOK_URL is not set"]
  | some u =>
      Effect.fetchWebhook u ::
      (if ok then [Effect.logInfo "Successfully posted to Slack"]
       else [Effect.logError "Slack API error"])

/-- The metadata fan-out of `formatSlackBlocks` as effects: one fetch per
story, except that `fetchMetadata` returns immediately (no network call) for
HN thread permalinks. -/
def metaEffects (stories : List ScoredItem) : List Effect :=
  stories.flatMap (fun s =>
    let u := toHnUrl s.item
    if u.startsWith "https://news.ycombinator.com" then [] else [Effect.fetchUrl u])

/-- Effect trace and exit code of the main IIFE, parametrised by the
environment: the configured webhook, the top-story ids, the per-id item
responses, the current time, the formatted date and the webhook response.
All oracles respond (thrown network errors are outside the model), so the
`catch`/`process.exit(1)` path is never taken and the exit code is 0. -/
def runModel (webhook : Option String) (ids : List Int) (fetchI : Int → Option Item)
    (now : Int) (today : String) (postOk : Bool) : List Effect × Nat :=
  let idsT := ids.take 100
  let stories := getAiStoriesPure (idsT.map fetchI) now
  let trace :=
    Effect.logInfo "Starting AI news bot..." ::
    Effect.fetchTopStories ::
    idsT.map Effect.fetchItem ++
    [Effect.logInfo ("Found " ++ toString stories.length ++ " AI stories")] ++
    (if stories.isEmpty then [Effect.logInfo "No stories found, posting empty message"] else []) ++
    metaEffects stories ++
    [Effect.logInfo ("Formatted " ++
      toString (formatSlackBlocksPure stories (stories.map (fun _ => { image := none, description := none })) today).length
      ++ " blocks")] ++
    postToSlackModel webhook postOk ++
    [Effect.logInfo "Done!"]
  (trace, 0)

/-! ### Helper lemmas: substring search and the word-boundary scanner -/

/-- `List.isPrefixOf` on characters agrees with the existence of a split. -/
theorem prefixOf_char_iff : ∀ (p l : List Char), p.isPrefixOf l = true ↔ ∃ t, l = p ++ t
  | [], l => by simp [List.isPrefixOf]
  | a :: as, [] => by simp [List.isPrefixOf]
  | a :: as, b :: bs => by
      simp only [List.isPrefixOf, Bool.and_eq_true, beq_iff_eq]
      constructor
      · rintro ⟨rfl, h⟩
        obtain ⟨t, rfl⟩ := (prefixOf_char_iff as bs).1 h
        exact ⟨t, rfl⟩
      · rintro ⟨t, ht⟩
        rw [List.cons_append] at ht
        cases ht
        exact ⟨rfl, (prefixOf_char_iff as (as ++ t)).2 ⟨t, rfl⟩⟩

/-- `isSubstringL` agrees with the existence of a split around the pattern. -/
theorem isSubstringL_iff (p : List Char) :
    ∀ l, isSubstringL p l = true ↔ ∃ pre post, l = pre ++ p ++ post
  | [] => by
      simp only [isSubstringL, List.isEmpty_iff]
      constructor
      · rintro rfl; exact ⟨[], [], rfl⟩
      · rintro ⟨pre, post, h⟩
        rcases List.append_eq_nil.mp h.symm with ⟨h1, h2⟩
        exact (List.append_eq_nil.mp h1).2
  | c :: rest => by
      simp only [isSubstringL, Bool.or_eq_true]
      constructor
      · rintro (h | h)
        · obtain ⟨t, ht⟩ := (prefixOf_char_iff p (c :: rest)).1 h
          exact ⟨[], t, by simpa using ht⟩
        · obtain ⟨pre, post, rfl⟩ := (isSubstringL_iff p rest).1 h
          exact ⟨c :: pre, post, rfl⟩
      · rintro ⟨pre, post, h⟩
        cases pre with
        | nil =>
          exact Or.inl ((prefixOf_char_iff p (c :: rest)).2 ⟨post, by simpa using h⟩)
        | cons d pre' =>
          rw [List.cons_append, List.cons_append] at h
          injection h with h1 h2
          exact Or.inr ((isSubstringL_iff p rest).2 ⟨pre', post, h2⟩)

/-- A substring occurrence of a longer pattern yields one of an inner
pattern: used to turn an `"html"` occurrence into an `"ml"` occurrence. -/
theorem isSubstringL_of_inner {outer innerPre innerPat innerPost : List Char}
    (houter : outer = innerPre ++ innerPat ++ innerPost) {l : List Char}
    (h : isSubstringL outer l = true) : isSubstringL innerPat l = true := by
  obtain ⟨pre, post, rfl⟩ := (isSubstringL_iff outer l).1 h
  subst houter
  refine (isSubstringL_iff innerPat _).2 ⟨pre ++ innerPre, innerPost ++ post, ?_⟩
  simp [List.append_assoc]

/-- A match attempt of `/\bai\b/` succeeds exactly on an `"ai"` head with
both boundaries satisfied. -/
theorem matchAiAt_iff (prev : Option Char) (l : List Char) :
    matchAiAt prev l = true ↔
      ∃ post, l = 'a' :: 'i' :: post ∧ okBefore prev = true ∧ okAfter post = true := by
  simp only [matchAiAt, Bool.and_eq_true]
  constructor
  · rintro ⟨⟨hp, hb⟩, ha⟩
    obtain ⟨t, rfl⟩ := (prefixOf_char_iff ['a', 'i'] l).1 hp
    exact ⟨t, rfl, hb, ha⟩
  · rintro ⟨post, rfl, hb, ha⟩
    exact ⟨⟨(prefixOf_char_iff ['a', 'i'] _).2 ⟨post, rfl⟩, hb⟩, ha⟩

/-- The scanner finds exactly the boundary-checked occurrences of `"ai"`.
`prevOf prev pre` is the character preceding the occurrence (or the carried
`prev` when it starts the scanned text). -/
theorem standaloneAiAux_iff :
    ∀ (l : List Char) (prev : Option Char),
      standaloneAiAux prev l = true ↔
        ∃ pre post, l = pre ++ 'a' :: 'i' :: post ∧
          okBefore (prevOf prev pre) = true ∧ okAfter post = true
  | [], prev => by
      simp only [standaloneAiAux]
      constructor
      · intro h; cases h
      · rintro ⟨pre, post, h, _, _⟩
        exact absurd h.symm (by simp)
  | c :: rest, prev => by
      simp only [standaloneAiAux, Bool.or_eq_true]
      constructor
      · rintro (h | h)
        · obtain ⟨post, heq, hb, ha⟩ := (matchAiAt_iff prev (c :: rest)).1 h
          exact ⟨[], post, by simpa using heq, hb, ha⟩
        · obtain ⟨pre, post, heq, hb, ha⟩ := (standaloneAiAux_iff rest (some c)).1 h
          exact ⟨c :: pre, post, by simp [heq], hb, ha⟩
      · rintro ⟨pre, post, heq, hb, ha⟩
        cases pre with
        | nil =>
          exact Or.inl ((matchAiAt_iff prev (c :: rest)).2
            ⟨post, by simpa using heq, hb, ha⟩)
        | cons d pre' =>
          injection heq with h1 h2
          subst h1
          exact Or.inr ((standaloneAiAux_iff rest (some c)).2 ⟨pre', post, h2, hb, ha⟩)

/-- The regex test characterised by splits of the text. -/
theorem standaloneAiB_iff (text : List Char) :
    standaloneAiB text = true ↔
      ∃ pre post, text = pre ++ 'a' :: 'i' :: post ∧
        okBefore (prevOf none pre) = true ∧ okAfter post = true :=
  standaloneAiAux_iff text none

/-- If every occurrence of `"ai"` in the text violates a word boundary on
one side, the regex test fails. -/
theorem standaloneAiB_eq_false_of_flanked {text : List Char}
    (h : ∀ pre post, text = pre ++ 'a' :: 'i' :: post →
      okBefore (prevOf none pre) = false ∨ okAfter post = false) :
    standaloneAiB text = false := by
  rcases hB : standaloneAiB text with _ | _
  · rfl
  · obtain ⟨pre, post, heq, hb, ha⟩ := (standaloneAiB_iff text).1 hB
    rcases h pre post heq with hf | hf
    · rw [hb] at hf; cases hf
    · rw [ha] at hf; cases hf

/-- Conversely, when the regex test fails every occurrence of `"ai"` in the
text violates a boundary: used to discharge the flanking hypothesis on
concrete inputs. -/
theorem flanked_of_standaloneAiB_eq_false {text : List Char}
    (h : standaloneAiB text = false) :
    ∀ pre post, text = pre ++ 'a' :: 'i' :: post →
      okBefore (prevOf none pre) = false ∨ okAfter post = false := by
  intro pre post heq
  rcases hb : okBefore (prevOf none pre) with _ | _
  · exact Or.inl rfl
  · rcases ha : okAfter post with _ | _
    · exact Or.inr rfl
    · have : standaloneAiB text = true := (standaloneAiB_iff text).2 ⟨pre, post, heq, hb, ha⟩
      rw [h] at this; cases this

/-- If the regex test succeeds then `"ai"` occurs as a plain substring. -/
theorem substring_ai_of_standaloneAiB {text : List Char}
    (h : standaloneAiB text = true) : isSubstringL ('a' :: 'i' :: []) text = true := by
  obtain ⟨pre, post, heq, _, _⟩ := (standaloneAiB_iff text).1 h
  exact (isSubstringL_iff _ text).2 ⟨pre, post, by simpa using heq⟩

/-! ### Helper lemmas: the three signal loops -/

/-- With no strong signal in the text, the strong loop falls through. -/
theorem strongLoop_eq_none {text : List Char} :
    ∀ {sigs : List String}, (∀ s ∈ sigs, isSubstringL s.data text = false) →
      strongLoop sigs text = none
  | [], _ => rfl
  | s :: rest, h => by
      have hs := h s (by simp)
      simp only [strongLoop, hs, Bool.false_eq_true, if_false]
      exact strongLoop_eq_none fun x hx => h x (List.mem_cons_of_mem s hx)

/-- With some strong signal in the text, the strong loop returns 30. -/
theorem strongLoop_eq_some {text : List Char} :
    ∀ {sigs : List String}, (∃ s ∈ sigs, isSubstringL s.data text = true) →
      strongLoop sigs text = some 30
  | [], h => by simp at h
  | s :: rest, h => by
      rcases hs : isSubstringL s.data text with _ | _
      · obtain ⟨x, hx, hsub⟩ := h
        rcases List.mem_cons.mp hx with rfl | hx'
        · rw [hs] at hsub; cases hsub
        · simp only [strongLoop, hs, Bool.false_eq_true, if_false]
          exact strongLoop_eq_some ⟨x, hx', hsub⟩
      · simp [strongLoop, hs]

/-- The strong loop returns nothing or exactly 30. -/
theorem strongLoop_cases (text : List Char) :
    ∀ (sigs : List String), strongLoop sigs text = none ∨ strongLoop sigs text = some 30
  | [] => Or.inl rfl
  | s :: rest => by
      rcases hs : isSubstringL s.data text with _ | _
      · simpa [strongLoop, hs] using strongLoop_cases text rest
      · simp [strongLoop, hs]

/-- With no medium signal in the text, the medium loop contributes nothing. -/
theorem mediumLoop_eq_zero {text : List Char} :
    ∀ {sigs : List String}, (∀ s ∈ sigs, isSubstringL s.data text = false) →
      mediumLoop sigs text = 0
  | [], _ => rfl
  | s :: rest, h => by
      have hs := h s (by simp)
      simp only [mediumLoop, hs, Bool.false_eq_true, if_false, Nat.zero_add]
      exact mediumLoop_eq_zero fun x hx => h x (List.mem_cons_of_mem s hx)

/-! ### Helper lemmas: the ranking sort -/

/-- The comparator is antisymmetric in the numeric sense: swapping its
arguments negates the result. -/
theorem cmpStories_neg (a b : ScoredItem) : cmpStories a b = -cmpStories b a := by
  unfold cmpStories
  split_ifs with h1 h2 h3 h4 h5 h6 h7 <;> omega

/-- `insertRanked` keeps the comparator chain: every adjacent pair of the
result is ordered (or tied) by the comparator. -/
theorem chain_insertRanked {x : ScoredItem} :
    ∀ {l : List ScoredItem}, List.Chain' (fun a b => cmpStories a b ≤ 0) l →
      List.Chain' (fun a b => cmpStories a b ≤ 0) (insertRanked x l)
  | [], _ => List.chain'_singleton x
  | y :: ys, h => by
      rw [insertRanked]
      by_cases hxy : cmpStories x y ≤ 0
      · simp only [hxy, if_true]
        exact List.chain'_cons.mpr ⟨hxy, h⟩
      · have hyx : cmpStories y x ≤ 0 := by
          have := cmpStories_neg x y; omega
        simp only [hxy, if_false]
        apply List.chain'_cons'.mpr
        refine ⟨?_, chain_insertRanked h.tail⟩
        intro z hz
        cases ys with
        | nil =>
          simp only [insertRanked, List.head?_cons, Option.mem_def, Option.some.injEq] at hz
          subst hz; exact hyx
        | cons w ws =>
          rw [insertRanked] at hz
          by_cases hxw : cmpStories x w ≤ 0
          · simp only [hxw, if_true, List.head?_cons, Option.mem_def, Option.some.injEq] at hz
            subst hz; exact hyx
          · simp only [hxw, if_false, List.head?_cons, Option.mem_def, Option.some.injEq] at hz
            subst hz; exact (List.chain'_cons.mp h).1

/-- The insertion sort produces a comparator chain. -/
theorem chain_sortRanked :
    ∀ (l : List ScoredItem), List.Chain' (fun a b => cmpStories a b ≤ 0) (sortRanked l)
  | [] => List.chain'_nil
  | x :: xs => @chain_insertRanked x (sortRanked xs) (chain_sortRanked xs)

/-- Membership through `insertRanked`. -/
theorem mem_insertRanked {a x : ScoredItem} :
    ∀ {l : List ScoredItem}, a ∈ insertRanked x l ↔ a = x ∨ a ∈ l
  | [] => by simp [insertRanked]
  | y :: ys => by
      rw [insertRanked]
      by_cases hxy : cmpStories x y ≤ 0
      · simp [hxy]
      · simp only [hxy, if_false, List.mem_cons, mem_insertRanked]
        tauto

/-- Membership through the sort. -/
theorem mem_sortRanked {a : ScoredItem} :
    ∀ {l : List ScoredItem}, a ∈ sortRanked l ↔ a ∈ l
  | [] => Iff.rfl
  | x :: xs => by
      rw [sortRanked, mem_insertRanked, mem_sortRanked]
      simp [eq_comm]

/-- What `scoreItem` guarantees about its output: the item is carried over
unchanged and `isRecent` is computed from its `time` field by the JS
falsiness rule. -/
theorem scoreItem_spec {cutoff : Int} {it : Item} {s : ScoredItem}
    (h : scoreItem cutoff it = some s) :
    s.item = it ∧
      s.isRecent = (match it.time with
        | none => true
        | some tm => tm == 0 || decide (cutoff ≤ tm)) := by
  obtain ⟨iid, ititle, iurl, iscore, itime, idesc⟩ := it
  rcases ititle with _ | t
  · exact absurd h (by simp [scoreItem])
  · by_cases ht : t = ""
    · exact absurd h (by simp [scoreItem, ht])
    · simp only [scoreItem, ht, if_false, Option.some.injEq] at h
      subst h
      exact ⟨rfl, rfl⟩

/-! ### Claim theorems -/

/-- C1: for every sequence of candidate items and every current time, the
list returned by the ranking step is a valid RankedList: at most 5 items,
and adjacent elements are non-increasing by the composite comparator key of
§4.2 (relevance with a ±5 tie band, then popularity with missing treated as
0, then creation time newer first with missing treated as 0) — i.e. the
comparator never orders a later element strictly before an earlier one. -/
theorem c1_ranked_list_valid (items : List (Option Item)) (now : Int) :
    (getAiStoriesPure items now).length ≤ 5 ∧
      List.Chain' (fun a b => cmpStories a b ≤ 0) (getAiStoriesPure items now) := by
  simp only [getAiStoriesPure]
  exact ⟨List.length_take_le 5 _, (chain_sortRanked _).take 5⟩

/-- C2: any title/url whose lower-cased concatenation contains a
strong-signal phrase scores at least 30 (the strong tier short-circuits and
returns immediately) and is classified AI-related. -/
theorem c2_strong_signal_decisive (title url : String)
    (h : ∃ s ∈ strongSignals, isSubstringL s.data (lowerText title url) = true) :
    30 ≤ calculateAiRelevanceScore title url ∧ isAiRelated title url = true := by
  have hscore : calculateAiRelevanceScore title url = 30 := by
    simp only [calculateAiRelevanceScore]
    rw [strongLoop_eq_some h]
  rw [hscore]
  constructor
  · omega
  · unfold isAiRelated
    rw [hscore]
    rfl

/-- Witness for C2 at the spec's example title "OpenAI launches GPT-5". -/
theorem c2_strong_signal_decisive_witness :
    (∃ s ∈ strongSignals,
        isSubstringL s.data (lowerText "OpenAI launches GPT-5" "") = true) ∧
      30 ≤ calculateAiRelevanceScore "OpenAI launches GPT-5" "" ∧
      isAiRelated "OpenAI launches GPT-5" "" = true :=
  ⟨⟨"openai", by decide, by decide⟩,
   c2_strong_signal_decisive "OpenAI launches GPT-5" "" ⟨"openai", by decide, by decide⟩⟩

/-- C3: the weak `"ai"` signal fires only on a word-boundary match.  If
every occurrence of `"ai"` in the lower-cased text is flanked by a word
character (the flanking hypothesis below) and no other signal phrase occurs,
the score is 0; and the bare standalone token `"ai"` scores exactly 5 and is
not classified AI-related. -/
theorem c3_weak_ai_word_boundary :
    (∀ title url,
      (∀ pre post, lowerText title url = pre ++ 'a' :: 'i' :: post →
        okBefore (prevOf none pre) = false ∨ okAfter post = false) →
      (∀ s ∈ strongSignals, isSubstringL s.data (lowerText title url) = false) →
      (∀ s ∈ mediumSignals, isSubstringL s.data (lowerText title url) = false) →
      isSubstringL ("machine learning".data) (lowerText title url) = false →
      isSubstringL ("ml".data) (lowerText title url) = false →
      isSubstringL ("deep learning".data) (lowerText title url) = false →
      calculateAiRelevanceScore title url = 0) ∧
    calculateAiRelevanceScore "ai" "" = 5 ∧ isAiRelated "ai" "" = false := by
  refine ⟨?_, by decide, by decide⟩
  intro title url hflank hstrong hmedium hmachine hml hdeep
  have hai : standaloneAiB (lowerText title url) = false :=
    standaloneAiB_eq_false_of_flanked hflank
  simp only [calculateAiRelevanceScore]
  rw [strongLoop_eq_none hstrong]
  rw [mediumLoop_eq_zero hmedium]
  unfold weakPoints
  simp [hai, hmachine, hml, hdeep]

/-- Witness for C3's universal part on the spec's "said"/"paid" examples. -/
theorem c3_weak_ai_word_boundary_witness :
    standaloneAiB (lowerText "Prices said and paid" "") = false ∧
      calculateAiRelevanceScore "Prices said and paid" "" = 0 :=
  ⟨by decide,
   c3_weak_ai_word_boundary.1 "Prices said and paid" ""
     (flanked_of_standaloneAiB_eq_false (by decide))
     (by decide) (by decide) (by decide) (by decide) (by decide)⟩

/-- C4: the relevance score is a natural number (hence nonnegative) capped
at 100, and `isAiRelated` holds exactly when the score reaches the
threshold 10. -/
theorem c4_score_range_and_threshold (title url : String) :
    calculateAiRelevanceScore title url ≤ 100 ∧
      (isAiRelated title url = true ↔ 10 ≤ calculateAiRelevanceScore title url) := by
  constructor
  · simp only [calculateAiRelevanceScore]
    rcases strongLoop_cases (lowerText title url) strongSignals with h | h <;>
      simp [h]
  · simp [isAiRelated]

/-- C5 counterexample item: AI-relevant, `time` field present and zero. -/
def itemEpoch : Item :=
  { id := 1, title := some "chatgpt", url := none, score := some 1,
    time := some 0, descendants := none }

/-- C5 counterexample: at `now = 1000000`, `itemEpoch.time = some 0` is
present and far older than 24 hours, yet the ranking step returns the item
(JS falsiness: `!item.time` is true for `time === 0`), contradicting the
claim that every item with present `time < now - 86400` is excluded. -/
theorem c5_zero_time_not_excluded :
    itemEpoch.time = some 0 ∧ (0 : Int) < 1000000 - 24 * 60 * 60 ∧
      getAiStoriesPure [some itemEpoch] 1000000 =
        [{ item := itemEpoch, relevanceScore := 30, isRecent := true }] :=
  ⟨rfl, by decide, by decide⟩

/-- C5 amended: every ranked story whose `time` is present and nonzero is
within the 24-hour window, and a story with absent `time` is marked recent
by the scoring step (items with `time = 0` are also treated as recent, by
JS falsiness). -/
theorem c5_recency_filter_amended :
    (∀ (items : List (Option Item)) (now : Int) (s : ScoredItem),
        s ∈ getAiStoriesPure items now →
        ∀ t, s.item.time = some t → t ≠ 0 → now - 24 * 60 * 60 ≤ t) ∧
    (∀ (cutoff : Int) (it : Item) (s : ScoredItem),
        scoreItem cutoff it = some s → it.time = none → s.isRecent = true) := by
  constructor
  · intro items now s hmem t htime ht0
    simp only [getAiStoriesPure] at hmem
    have h1 := List.mem_of_mem_take hmem
    have h2 := mem_sortRanked.1 h1
    obtain ⟨h3, hkeep⟩ := List.mem_filter.mp h2
    obtain ⟨oi, hoi, hbind⟩ := List.mem_filterMap.mp h3
    rcases oi with _ | it
    · exact absurd hbind (by simp)
    · have hbind' : scoreItem (now - 24 * 60 * 60) it = some s := hbind
      obtain ⟨hitem, hrec⟩ := scoreItem_spec hbind'
      rw [hitem] at htime
      rw [htime] at hrec
      have hrecent : s.isRecent = true := by
        simp only [keepStory, Bool.and_eq_true] at hkeep
        exact hkeep.2
      rw [hrecent] at hrec
      have hor := hrec.symm
      rw [Bool.or_eq_true] at hor
      rcases hor with hz | hle
      · exact absurd (by simpa using hz) ht0
      · exact of_decide_eq_true hle
  · intro cutoff it s hsc hnone
    obtain ⟨_, hrec⟩ := scoreItem_spec hsc
    rw [hnone] at hrec
    exact hrec

/-- C5 amended items for the witness. -/
def itemFresh : Item :=
  { id := 2, title := some "chatgpt", url := none, score := some 1,
    time := some 999999, descendants := none }

/-- C5 amended witness item with no `time` field. -/
def itemTimeless : Item :=
  { id := 3, title := some "chatgpt", url := none, score := none,
    time := none, descendants := none }

/-- Witness for C5's amended theorem at concrete inputs. -/
theorem c5_recency_filter_amended_witness :
    ((1000000 : Int) - 24 * 60 * 60 ≤ 999999) ∧
      ({ item := itemTimeless, relevanceScore := 30, isRecent := true } :
        ScoredItem).isRecent = true :=
  ⟨c5_recency_filter_amended.1 [some itemFresh] 1000000
      { item := itemFresh, relevanceScore := 30, isRecent := true }
      (by decide) 999999 rfl (by decide),
   c5_recency_filter_amended.2 0 itemTimeless
      { item := itemTimeless, relevanceScore := 30, isRecent := true }
      (by decide) rfl⟩

/-- C6 counterexample: with the webhook unset, the run still performs the
candidate network fetches, still reaches the configuration-error log only
at the publish step, and exits 0 — contradicting "fatal, abort before any
network call". -/
theorem c6_missing_webhook_not_fatal :
    Effect.fetchTopStories ∈ (runModel none [1] (fun _ => none) 1000 "d" true).1 ∧
      Effect.logError "SLACK_WEBHOOK_URL is not set" ∈
        (runModel none [1] (fun _ => none) 1000 "d" true).1 ∧
      (runModel none [1] (fun _ => none) 1000 "d" true).2 = 0 :=
  ⟨by decide, by decide, rfl⟩

/-- C6 amended: with the webhook unset, `postToSlack` logs the
configuration error and performs no webhook call (its whole effect trace is
that single log line), and the run completes with exit code 0 rather than
aborting. -/
theorem c6_missing_webhook_amended (ok : Bool) (ids : List Int)
    (fetchI : Int → Option Item) (now : Int) (today : String) :
    postToSlackModel none ok = [Effect.logError "SLACK_WEBHOOK_URL is not set"] ∧
      (runModel none ids fetchI now today ok).2 = 0 :=
  ⟨rfl, rfl⟩

/-- C7: an empty candidate input yields an empty RankedList, and composing
that empty list yields exactly the header, the divider and one "no stories"
text section — no per-item blocks. -/
theorem c7_empty_input_no_error (now : Int) (today : String) (metas : List Metadata) :
    getAiStoriesPure [] now = [] ∧
      formatSlackBlocksPure (getAiStoriesPure [] now) metas today =
        [Block.header (BlockText.plain (headerText today) true), Block.divider,
         Block.section (BlockText.mrkdwn "No AI-related stories found today.") none] :=
  ⟨rfl, rfl⟩

/-- C8: the cleaned description never exceeds 200 characters; when the
entity-decoded trimmed text exceeds 200 characters the result is its first
197 characters followed by the `"..."` ellipsis marker, exactly 200
characters; otherwise it is the decoded trimmed text unchanged. -/
theorem c8_description_bounded (raw : String) :
    (cleanDescription raw).length ≤ 200 ∧
      (200 < (cleanCore raw).length →
        (cleanDescription raw).data = (cleanCore raw).take 197 ++ ("...".data) ∧
          (cleanDescription raw).length = 200) ∧
      ((cleanCore raw).length ≤ 200 → (cleanDescription raw).data = cleanCore raw) := by
  unfold cleanDescription
  by_cases h : 200 < (cleanCore raw).length
  · rw [if_pos h]
    refine ⟨?_, fun _ => ⟨rfl, ?_⟩, fun hle => absurd h (by omega)⟩
    · simp only [String.length, List.length_append, List.length_take,
        List.length_cons, List.length_nil]
      omega
    · simp only [String.length, List.length_append, List.length_take,
        List.length_cons, List.length_nil]
      omega
  · rw [if_neg h]
    refine ⟨?_, fun hgt => absurd hgt h, fun _ => rfl⟩
    simp [String.length]
    omega

/-- A 205-character raw description for the C8 witness. -/
def longRaw : String := String.mk (List.replicate 205 'x')

set_option maxRecDepth 40000 in
/-- Witness for C8 on a 205-character input: the cleaned core exceeds 200
characters and the final description is exactly 200 characters. -/
theorem c8_description_bounded_witness :
    200 < (cleanCore longRaw).length ∧ (cleanDescription longRaw).length = 200 := by
  have h : 200 < (cleanCore longRaw).length := by decide
  exact ⟨h, ((c8_description_bounded longRaw).2.1 h).2⟩

/-- C9: the legacy KEYWORDS table is not consulted: a text that contains a
KEYWORDS-only phrase (one absent from all three signal lists) but no phrase
of the strong, medium or weak signal lists scores 0 and is not classified
AI-related. -/
theorem c9_keywords_table_unused (title url : String)
    (_hkw : ∃ k ∈ KEYWORDS, k ∉ strongSignals ∧ k ∉ mediumSignals ∧ k ∉ weakSignals ∧
      isSubstringL k.data (lowerText title url) = true)
    (hstrong : ∀ s ∈ strongSignals, isSubstringL s.data (lowerText title url) = false)
    (hmedium : ∀ s ∈ mediumSignals, isSubstringL s.data (lowerText title url) = false)
    (hweak : ∀ s ∈ weakSignals, isSubstringL s.data (lowerText title url) = false) :
    calculateAiRelevanceScore title url = 0 ∧ isAiRelated title url = false := by
  have hai : standaloneAiB (lowerText title url) = false := by
    rcases h : standaloneAiB (lowerText title url) with _ | _
    · rfl
    · have hsub := substring_ai_of_standaloneAiB h
      have hnone := hweak "ai" (by simp [weakSignals])
      rw [show ("ai".data) = ['a', 'i'] from rfl] at hnone
      rw [hnone] at hsub
      cases hsub
  have hscore : calculateAiRelevanceScore title url = 0 := by
    simp only [calculateAiRelevanceScore]
    rw [strongLoop_eq_none hstrong]
    rw [mediumLoop_eq_zero hmedium]
    unfold weakPoints
    simp [hai, hweak "machine learning" (by simp [weakSignals]),
      hweak "ml" (by simp [weakSignals]), hweak "deep learning" (by simp [weakSignals])]
  refine ⟨hscore, ?_⟩
  unfold isAiRelated
  rw [hscore]
  rfl

/-- Witness for C9 at "stable diffusion", a phrase present only in the
legacy KEYWORDS table. -/
theorem c9_keywords_table_unused_witness :
    calculateAiRelevanceScore "stable diffusion" "" = 0 ∧
      isAiRelated "stable diffusion" "" = false :=
  c9_keywords_table_unused "stable diffusion" ""
    ⟨"stable diffusion", by decide, by decide, by decide, by decide, by decide⟩
    (by decide) (by decide) (by decide)

/-- C10: the word-boundary rule applies only to `"ai"`; the weak `"ml"`
signal matches as a raw substring (for instance inside `"html"`), so a text
with a standalone `"ai"` token and an `"html"` substring and no other
signals scores exactly 10 and is classified AI-related. -/
theorem c10_weak_ml_raw_substring (title url : String)
    (hhtml : isSubstringL ("html".data) (lowerText title url) = true)
    (hai : standaloneAiB (lowerText title url) = true)
    (hstrong : ∀ s ∈ strongSignals, isSubstringL s.data (lowerText title url) = false)
    (hmedium : ∀ s ∈ mediumSignals, isSubstringL s.data (lowerText title url) = false)
    (hmachine : isSubstringL ("machine learning".data) (lowerText title url) = false)
    (hdeep : isSubstringL ("deep learning".data) (lowerText title url) = false) :
    calculateAiRelevanceScore title url = 10 ∧ isAiRelated title url = true := by
  have hml : isSubstringL ("ml".data) (lowerText title url) = true :=
    @isSubstringL_of_inner ("html".data) ['h', 't'] ("ml".data) [] (by decide)
      (lowerText title url) hhtml
  have hscore : calculateAiRelevanceScore title url = 10 := by
    simp only [calculateAiRelevanceScore]
    rw [strongLoop_eq_none hstrong]
    rw [mediumLoop_eq_zero hmedium]
    unfold weakPoints
    simp [hai, hml, hmachine, hdeep]
  refine ⟨hscore, ?_⟩
  unfold isAiRelated
  rw [hscore]
  rfl

/-- Witness for C10 at "ai in html". -/
theorem c10_weak_ml_raw_substring_witness :
    calculateAiRelevanceScore "ai in html" "" = 10 ∧
      isAiRelated "ai in html" "" = true :=
  c10_weak_ml_raw_substring "ai in html" ""
    (by decide) (by decide) (by decide) (by decide) (by decide) (by decide)

end AiNewsBot
